import Mathlib

/-!
Shallow embedding of the telegram-fin-gpt repository:
the ledger store (`src/services/database.py`, an SQLite table accessed through
`aiosqlite`), the action resolver (`src/services/ai.py`) and the message
dispatcher (`src/handlers/messages.py`).

Modelling conventions:
* Amounts are exact integers (`Int`); the Python code stores SQLite `REAL`
  values but every property below concerns signs, absolute values and sums.
* Calendar dates (`transaction_date`, the `start`/`end` of a report range and
  "today") are integers ordered like their ISO-8601 text form: the SQL
  comparisons `BETWEEN ? AND ?` and `= ?` on ISO strings coincide with `≤`/`=`
  on these integers (Python's proleptic-Gregorian ordinal is such an integer).
* `created_at`/`updated_at` timestamps are drawn from a monotone clock held in
  the database state; each mutating call ticks the clock, so two rows never
  share a `created_at`.  On every state reachable through the API the `rows`
  list is kept in strictly increasing `created_at` order (predicate `WF`
  below), so SQL's `ORDER BY created_at DESC` is `List.reverse`.
* Each SQL statement is translated clause by clause: `WHERE` becomes a
  `List.filter` whose boolean condition mirrors the SQL condition in the same
  order, `LIMIT n` becomes `List.take`, `UPDATE ... WHERE` becomes a
  `List.map` guarded by the same condition, and `cursor.rowcount` is the
  number of rows satisfying the condition.
-/

/-- `TransactionType` from `src/constants.py`: INCOME = "thu", EXPENSE = "chi". -/
inductive TransactionType
  | thu
  | chi
deriving DecidableEq, Repr

/-- `ActionType` from `src/constants.py`.  The Python member `EXPORT` is named
`exportA` here because `export` is a Lean keyword. -/
inductive ActionType
  | insert
  | update
  | delete
  | query
  | report
  | exportA
  | clear
  | undo
  | help
  | unknown
deriving DecidableEq, Repr

/-- `ReportType` from `src/constants.py`. -/
inductive ReportType
  | day
  | week
  | month
deriving DecidableEq, Repr

/-- One row of the `transactions` table (`src/models.py`, `Transaction`). -/
structure Row where
  id : Nat
  user_id : Int
  amount : Int
  category : String
  note : Option String
  type : TransactionType
  transaction_date : Int
  created_at : Nat
  updated_at : Nat
  is_deleted : Bool
deriving DecidableEq, Repr

/-- The persistent state: the `transactions` table (in physical row order,
which for states built by the API is also `created_at` order), the next
AUTOINCREMENT id, and the monotone timestamp clock. -/
structure DBState where
  rows : List Row
  nextId : Nat
  clock : Nat
deriving DecidableEq, Repr

/-- The freshly created database of `DatabaseService.init`. -/
def initDB : DBState := { rows := [], nextId := 1, clock := 0 }

/-- ASCII case folding: SQLite's built-in `LIKE` is case-insensitive for the
ASCII letters A-Z (and only those), comparing characters after mapping
upper-case ASCII to lower-case. -/
def foldChar (c : Char) : Char :=
  if 'A' ≤ c ∧ c ≤ 'Z' then Char.ofNat (c.toNat + 32) else c

/-- SQLite `LIKE` pattern matching (default behaviour, no ESCAPE clause):
`%` matches any character sequence, `_` matches exactly one character, and
every other pattern character matches a text character equal to it up to
ASCII case folding.  Structural recursion on a fuel counter: every recursive
call strictly decreases `p.length + t.length`, so the wrapper's initial fuel
`p.length + t.length + 1` is never exhausted and the `0` equation is dead. -/
def likeMatchF : Nat → List Char → List Char → Bool
  | 0, _, _ => false
  | _ + 1, [], t => t.isEmpty
  | fuel + 1, '%' :: p, [] => likeMatchF fuel p []
  | fuel + 1, '%' :: p, c :: t =>
      likeMatchF fuel p (c :: t) || likeMatchF fuel ('%' :: p) t
  | _ + 1, '_' :: _, [] => false
  | fuel + 1, '_' :: p, _ :: t => likeMatchF fuel p t
  | _ + 1, _ :: _, [] => false
  | fuel + 1, a :: p, c :: t => (foldChar a == foldChar c) && likeMatchF fuel p t

/-- SQLite `LIKE`, with the sufficient fuel. -/
def likeMatch (p t : List Char) : Bool :=
  likeMatchF (p.length + t.length + 1) p t

/-- The pattern `f"%{keyword}%"` built by `DatabaseService.find`. -/
def likePat (k : String) : List Char := '%' :: (k.data ++ ['%'])

/-- The SQL condition `note LIKE '%keyword%'`.  A NULL note makes the
condition NULL, which SQL treats as not satisfied, so the row is excluded. -/
def noteLike (n : Option String) (k : String) : Bool :=
  match n with
  | some s => likeMatch (likePat k) s.data
  | none => false

namespace DatabaseService

/-- The condition `user_id = ? AND is_deleted = 0`, shared verbatim by the
queries of `get_last`, `export_csv`, `get_stats` and `clear_all`. -/
def visCond (user_id : Int) (r : Row) : Bool :=
  r.user_id == user_id && !r.is_deleted

/-- The user's non-deleted rows, in stored (creation) order. -/
def visibleFor (s : DBState) (user_id : Int) : List Row :=
  s.rows.filter (visCond user_id)

/-- `DatabaseService.insert` (database.py lines 48-70): stores `abs(amount)`,
defaults the date to today (`tx_date = tx_date or date.today()`; a Python
`date` is always truthy, so this is a None-default), appends the row and
returns `cursor.lastrowid`. -/
def insert (s : DBState) (user_id : Int) (amount : Int) (category : String)
    (note : Option String) (tx_type : TransactionType) (tx_date : Option Int)
    (today : Int) : DBState × Nat :=
  let d := tx_date.getD today
  let row : Row :=
    { id := s.nextId, user_id := user_id, amount := |amount|, category := category,
      note := note, type := tx_type, transaction_date := d,
      created_at := s.clock, updated_at := s.clock, is_deleted := false }
  ({ rows := s.rows ++ [row], nextId := s.nextId + 1, clock := s.clock + 1 }, s.nextId)

/-- The condition `id = ? AND user_id = ? AND is_deleted = 0` used by the
UPDATE statements of `update` and `delete`. -/
def rowHit (tx_id : Nat) (user_id : Int) (r : Row) : Bool :=
  r.id == tx_id && r.user_id == user_id && !r.is_deleted

/-- `DatabaseService.update` (database.py lines 72-107): a field is part of
the SET list iff the corresponding argument `is not None` (so an explicit
empty string counts as supplied); with no supplied field it returns False
before touching the database; a supplied amount is stored as `abs(amount)`;
`updated_at` is always set; the result is `cursor.rowcount > 0`. -/
def update (s : DBState) (tx_id : Nat) (user_id : Int) (amount : Option Int)
    (category : Option String) (note : Option String) : DBState × Bool :=
  if amount = none ∧ category = none ∧ note = none then (s, false)
  else
    let rows' := s.rows.map fun r =>
      if rowHit tx_id user_id r then
        { r with
          amount := match amount with | some a => |a| | none => r.amount,
          category := match category with | some c => c | none => r.category,
          note := match note with | some n => some n | none => r.note,
          updated_at := s.clock }
      else r
    ({ s with rows := rows', clock := s.clock + 1 },
     s.rows.any (rowHit tx_id user_id))

/-- `DatabaseService.delete` (database.py lines 109-120): soft delete, same
WHERE clause as `update`, result is `cursor.rowcount > 0`. -/
def delete (s : DBState) (tx_id : Nat) (user_id : Int) : DBState × Bool :=
  let rows' := s.rows.map fun r =>
    if rowHit tx_id user_id r then { r with is_deleted := true, updated_at := s.clock }
    else r
  ({ s with rows := rows', clock := s.clock + 1 }, s.rows.any (rowHit tx_id user_id))

/-- `DatabaseService.get_last` (database.py lines 122-132):
`ORDER BY created_at DESC LIMIT 1` over the user's non-deleted rows; on
`WF` states this is the head of the reversed visible list. -/
def get_last (s : DBState) (user_id : Int) : Option Row :=
  ((visibleFor s user_id).reverse).head?

/-- The WHERE condition assembled by `DatabaseService.find`: the base
conditions `user_id = ?` and `is_deleted = 0` always, then `note LIKE ?`,
`category = ?` and `transaction_date = ?` — each added only when the Python
argument is truthy (`if keyword:` etc.), so `None` and the empty string both
mean "no condition". -/
def findCond (user_id : Int) (keyword category : Option String)
    (tx_date : Option Int) (r : Row) : Bool :=
  r.user_id == user_id && !r.is_deleted &&
  (match keyword with
   | some k => if k = "" then true else noteLike r.note k
   | none => true) &&
  (match category with
   | some c => if c = "" then true else r.category == c
   | none => true) &&
  (match tx_date with
   | some d => r.transaction_date == d
   | none => true)

/-- `DatabaseService.find` (database.py lines 134-166):
`... WHERE <conditions> ORDER BY created_at DESC LIMIT ?`. -/
def find (s : DBState) (user_id : Int) (keyword : Option String)
    (category : Option String) (tx_date : Option Int) (limit : Nat) : List Row :=
  ((s.rows.filter (findCond user_id keyword category tx_date)).reverse).take limit

end DatabaseService

/-- One row of `get_report`'s `GROUP BY category, type` query:
`SELECT category, type, SUM(amount) as total, COUNT(*) as count`. -/
structure CatRow where
  category : String
  type : TransactionType
  total : Int
  count : Nat
deriving DecidableEq, Repr

/-- The `Report` dataclass of `src/models.py`. -/
structure Report where
  start_date : Int
  end_date : Int
  total_income : Int
  total_expense : Int
  balance : Int
  by_category : List CatRow
  transactions : List Row
deriving DecidableEq, Repr

/-- Insert an element into a list sorted by the boolean preorder `le`,
keeping it in front of the first element it `le`-precedes (stable). -/
def insertSorted {α : Type} (le : α → α → Bool) (a : α) : List α → List α
  | [] => [a]
  | b :: bs => if le a b then a :: b :: bs else b :: insertSorted le a bs

/-- Stable insertion sort by the boolean preorder `le`; models SQL
`ORDER BY` (which leaves the relative order of ties unspecified — any stable
sort is one admissible implementation). -/
def sortByB {α : Type} (le : α → α → Bool) : List α → List α
  | [] => []
  | a :: l => insertSorted le a (sortByB le l)

namespace DatabaseService

/-- The range condition shared by the last two queries of `get_report`:
`user_id = ? AND is_deleted = 0 AND transaction_date BETWEEN ? AND ?`
(SQL BETWEEN is inclusive on both ends). -/
def rangeCond (user_id : Int) (start finish : Int) (r : Row) : Bool :=
  r.user_id == user_id && !r.is_deleted &&
  decide (start ≤ r.transaction_date) && decide (r.transaction_date ≤ finish)

/-- The in-range non-deleted rows of the user. -/
def inRangeRows (s : DBState) (user_id : Int) (start finish : Int) : List Row :=
  s.rows.filter (rangeCond user_id start finish)

/-- The condition of the income/expense total queries of `get_report`:
`user_id = ? AND type = ? AND is_deleted = 0 AND transaction_date BETWEEN ? AND ?`. -/
def typedCond (user_id : Int) (t : TransactionType) (start finish : Int) (r : Row) : Bool :=
  r.user_id == user_id && r.type == t && !r.is_deleted &&
  decide (start ≤ r.transaction_date) && decide (r.transaction_date ≤ finish)

/-- The income/expense totals of `get_report`:
`SELECT COALESCE(SUM(amount), 0) ... WHERE <typedCond>`. -/
def typedTotal (s : DBState) (user_id : Int) (t : TransactionType)
    (start finish : Int) : Int :=
  ((s.rows.filter (typedCond user_id t start finish)).map (fun r => r.amount)).sum

/-- The aggregate row of one `(category, type)` group over the in-range rows. -/
def catRowFor (l : List Row) (k : String × TransactionType) : CatRow :=
  let g := l.filter fun r => r.category == k.1 && r.type == k.2
  { category := k.1, type := k.2,
    total := (g.map (fun r => r.amount)).sum, count := g.length }

/-- The comparison of `ORDER BY total DESC`. -/
def catLe (e₁ e₂ : CatRow) : Bool := decide (e₂.total ≤ e₁.total)

/-- The comparison of `ORDER BY transaction_date DESC`. -/
def dateLe (r₁ r₂ : Row) : Bool := decide (r₂.transaction_date ≤ r₁.transaction_date)

/-- `DatabaseService.get_report` (database.py lines 170-220): income and
expense totals, the `GROUP BY category, type ORDER BY total DESC` breakdown
(one aggregate row per distinct key among the in-range rows), and the
transaction list ordered by `transaction_date DESC, created_at DESC`
(a stable date sort of the `created_at`-descending list). -/
def get_report (s : DBState) (user_id : Int) (start finish : Int) : Report :=
  let income := typedTotal s user_id .thu start finish
  let expense := typedTotal s user_id .chi start finish
  let rs := inRangeRows s user_id start finish
  let keys := (rs.map fun r => (r.category, r.type)).dedup
  { start_date := start, end_date := finish,
    total_income := income, total_expense := expense,
    balance := income - expense,
    by_category := sortByB catLe (keys.map (catRowFor rs)),
    transactions := sortByB dateLe rs.reverse }

/-- `DatabaseService.clear_all` (database.py lines 240-249): soft-deletes
every row with `user_id = ? AND is_deleted = 0`, returns `cursor.rowcount`. -/
def clear_all (s : DBState) (user_id : Int) : DBState × Nat :=
  let rows' := s.rows.map fun r =>
    if visCond user_id r then { r with is_deleted := true, updated_at := s.clock }
    else r
  ({ s with rows := rows', clock := s.clock + 1 },
   (s.rows.filter (visCond user_id)).length)

/-- Rendering of the `type` column text. -/
def typeStr : TransactionType → String
  | .thu => "thu"
  | .chi => "chi"

/-- One CSV data line: `f"{date},{type},{category},{amount},{note or ''}"`
(a NULL note and an empty note both render as the empty string). -/
def csvLine (r : Row) : String :=
  toString r.transaction_date ++ "," ++ typeStr r.type ++ "," ++ r.category ++ ","
    ++ toString r.amount ++ "," ++ r.note.getD ""

/-- `DatabaseService.export_csv` (database.py lines 251-267): the user's
non-deleted rows ordered by `transaction_date DESC`, rendered under a fixed
header line. -/
def export_csv (s : DBState) (user_id : Int) : String :=
  let rows := sortByB dateLe (visibleFor s user_id)
  String.intercalate "\n" ("Ngày,Loại,Danh mục,Số tiền,Ghi chú" :: rows.map csvLine)

/-- `DatabaseService.get_stats` (database.py lines 269-279): the row count
`SELECT COUNT(*) ... WHERE user_id = ? AND is_deleted = 0` (the reported
file size is filesystem state, outside the data model). -/
def get_stats (s : DBState) (user_id : Int) : Nat :=
  (visibleFor s user_id).length

end DatabaseService

/-- Physically erase the soft-deleted rows.  Every read operation must be
insensitive to this (soft-deleted rows influence nothing), which is exactly
how claim C1's "excluded from, not counted in, not summed into" is stated. -/
def purge (s : DBState) : DBState :=
  { s with rows := s.rows.filter fun r => !r.is_deleted }

/-- A scalar JSON value as produced by `json.loads` for one field of the
model's response object; numbers are integers (every numeric field of the
JSON contract — amount, date_offset, transaction_id, limit — is integral). -/
inductive JVal
  | jnull
  | jbool (b : Bool)
  | jnum (n : Int)
  | jstr (s : String)
deriving DecidableEq, Repr

/-- Python truthiness of a scalar JSON value. -/
def truthy : JVal → Bool
  | .jnull => false
  | .jbool b => b
  | .jnum n => n != 0
  | .jstr s => s != ""

/-- Python `str()` of a scalar JSON value, as used by the f-string
`f"%{keyword}%"` when a non-string keyword reaches `find`. -/
def pyStr : JVal → String
  | .jnull => "None"
  | .jbool b => if b then "True" else "False"
  | .jnum n => toString n
  | .jstr s => s

/-- A parsed JSON object (`dict`); Python dict keys are unique, lookup takes
the first binding. -/
def JObj := List (String × JVal)
deriving DecidableEq, Repr

/-- Python `data.get(key, default)`. -/
def JObj.getD (data : JObj) (k : String) (dflt : JVal) : JVal :=
  match List.find? (fun kv => kv.1 == k) data with
  | some kv => kv.2
  | none => dflt

/-- Python `data.get(key)` (default `None`). -/
def JObj.get (data : JObj) (k : String) : JVal :=
  data.getD k .jnull

/-- The `AIAction` dataclass of `src/models.py` as populated by
`AIService._parse_action`.  Fields that `_parse_action` stores without
conversion (`amount`, `category`, `date_offset`, `time_of_day`,
`transaction_id`, `keyword`, `limit`, `message`) keep the raw JSON value
(Python's dataclass performs no type checking).  There is deliberately no
`note` field: the Python dataclass does not declare one. -/
structure AIAction where
  action : ActionType
  amount : JVal
  category : JVal
  tx_type : Option TransactionType
  date_offset : JVal
  time_of_day : JVal
  target_date : Int
  transaction_id : JVal
  keyword : JVal
  report_type : Option ReportType
  limit : JVal
  message : JVal
deriving DecidableEq, Repr

namespace AIService

/-- `ActionType(value)`: the enum member whose value is the given string,
else a `ValueError` (represented as `none`; the caller catches it). -/
def actionOfString (s : String) : Option ActionType :=
  if s = "insert" then some .insert
  else if s = "update" then some .update
  else if s = "delete" then some .delete
  else if s = "query" then some .query
  else if s = "report" then some .report
  else if s = "export" then some .exportA
  else if s = "clear" then some .clear
  else if s = "undo" then some .undo
  else if s = "help" then some .help
  else if s = "unknown" then some .unknown
  else none

/-- `AIService._extract_json` (ai.py lines 98-112): three parse attempts,
each wrapped in a bare `try/except: continue`, then the literal fallback
`{"action": "unknown"}`.  Each attempt's outcome (the parsed object, or any
exception) is abstracted as an `Option JObj`; the function itself can never
raise because every attempt's exception is swallowed. -/
def extract_json (a₁ a₂ a₃ : Option JObj) : JObj :=
  match a₁ with
  | some d => d
  | none =>
    match a₂ with
    | some d => d
    | none =>
      match a₃ with
      | some d => d
      | none => [("action", JVal.jstr "unknown")]

/-- The computation `date.today() - timedelta(days=data.get("date_offset", 0))`
of `_parse_action`: `timedelta(days=v)` raises TypeError unless `v` is a
number (a Python bool counts as the integer 0 or 1), and the date
subtraction raises OverflowError when the result leaves Python's
representable date range, ordinal 1 (0001-01-01) to 3652059 (9999-12-31). -/
def resolveTargetDate (today : Int) (v : JVal) : Except String Int :=
  match v with
  | .jnum n =>
    if 1 ≤ today - n ∧ today - n ≤ 3652059 then .ok (today - n)
    else .error "OverflowError: date value out of range"
  | .jbool b =>
    let n : Int := if b then 1 else 0
    if 1 ≤ today - n ∧ today - n ≤ 3652059 then .ok (today - n)
    else .error "OverflowError: date value out of range"
  | .jnull => .error "TypeError: unsupported type for timedelta days component"
  | .jstr _ => .error "TypeError: unsupported type for timedelta days component"

/-- `AIService._parse_action` (ai.py lines 127-166).  The three enum
conversions are each wrapped in `try/except ValueError` with the documented
fallback (UNKNOWN / EXPENSE / DAY), the `type` and `report_type` conversions
run only when the raw field is truthy, and the date-offset arithmetic is the
one unguarded computation: its exception propagates. -/
def parse_action (today : Int) (data : JObj) : Except String AIAction :=
  let action : ActionType :=
    match data.getD "action" (JVal.jstr "unknown") with
    | .jstr s => (actionOfString s).getD .unknown
    | _ => .unknown
  let tx_type : Option TransactionType :=
    let v := data.get "type"
    if truthy v then some (if v == JVal.jstr "thu" then .thu else .chi) else none
  let report_type : Option ReportType :=
    let v := data.get "report_type"
    if truthy v then
      some (if v == JVal.jstr "week" then .week
            else if v == JVal.jstr "month" then .month
            else .day)
    else none
  match resolveTargetDate today (data.getD "date_offset" (JVal.jnum 0)) with
  | .error e => .error e
  | .ok td =>
    .ok { action := action,
          amount := data.get "amount",
          category := data.get "category",
          tx_type := tx_type,
          date_offset := data.getD "date_offset" (JVal.jnum 0),
          time_of_day := data.get "time_of_day",
          target_date := td,
          transaction_id := data.get "transaction_id",
          keyword := data.get "keyword",
          report_type := report_type,
          limit := data.getD "limit" (JVal.jnum 10),
          message := data.get "message" }

end AIService

/-- The reply of `_handle_update` when no transaction id could be resolved. -/
def notFoundUpdateMsg : String := "❌ Không tìm thấy giao dịch để sửa."

/-- `_handle_update` (messages.py lines 178-199).  Target resolution:
the explicit `action.transaction_id` if truthy, else (when a truthy keyword
is present) the id of the first keyword search hit, else the last
transaction.  With no resolvable id it replies "not found" without touching
the store.  With a resolved id the source evaluates
`db.update(tx_id, user_id, action.amount, action.category, action.note)` —
but the `AIAction` dataclass declares no `note` attribute, so the argument
expression `action.note` raises `AttributeError` before the store is called;
the raised exception is the `Except.error` branch. -/
def handle_update (s : DBState) (user_id : Int) (action : AIAction)
    (last_tx : Option Row) : Except String (DBState × String) :=
  let t₀ := action.transaction_id
  let t₁ :=
    if !truthy t₀ && truthy action.keyword then
      match DatabaseService.find s user_id (some (pyStr action.keyword)) none none 1 with
      | r :: _ => JVal.jnum (Int.ofNat r.id)
      | [] => t₀
    else t₀
  let t₂ :=
    if !truthy t₁ then
      match last_tx with
      | some tx => JVal.jnum (Int.ofNat tx.id)
      | none => t₁
    else t₁
  if !truthy t₂ then .ok (s, notFoundUpdateMsg)
  else .error "AttributeError: AIAction object has no attribute note"

/-- The mutating ledger operations, for stating invariants over arbitrary
operation sequences. -/
inductive Op
  | ins (user_id : Int) (amount : Int) (category : String) (note : Option String)
        (tx_type : TransactionType) (tx_date : Option Int) (today : Int)
  | upd (tx_id : Nat) (user_id : Int) (amount : Option Int)
        (category : Option String) (note : Option String)
  | del (tx_id : Nat) (user_id : Int)

def applyOp (s : DBState) : Op → DBState
  | .ins u a c n t d td => (DatabaseService.insert s u a c n t d td).1
  | .upd i u a c n => (DatabaseService.update s i u a c n).1
  | .del i u => (DatabaseService.delete s i u).1

def applyOps (s : DBState) (l : List Op) : DBState := l.foldl applyOp s

/-- Claim-side helper (spec wording, not source): `needle` is a prefix of
`hay`, comparing characters exactly (case-sensitively). -/
def isPrefixCS : List Char → List Char → Bool
  | [], _ => true
  | _ :: _, [] => false
  | a :: as, b :: bs => (a == b) && isPrefixCS as bs

/-- Claim-side helper (spec wording, not source): `needle` occurs in `hay`
as a case-sensitive substring.  Used to state C5 exactly as written, for
comparison with the source's `LIKE` condition. -/
def specContainsSub (needle : List Char) : List Char → Bool
  | [] => isPrefixCS needle []
  | c :: t => isPrefixCS needle (c :: t) || specContainsSub needle t

/-- Adjacent `created_at` values strictly increase along the list. -/
def ascendingB : List Row → Bool
  | [] => true
  | [_] => true
  | r₁ :: r₂ :: rest => decide (r₁.created_at < r₂.created_at) && ascendingB (r₂ :: rest)

/-- Well-formedness of a database state, maintained by every API operation:
rows are stored in strictly increasing `created_at` order and every
timestamp is below the clock.  `ORDER BY created_at DESC` is `List.reverse`
exactly on such states. -/
def WF (s : DBState) : Prop :=
  (ascendingB s.rows && s.rows.all fun r => decide (r.created_at < s.clock)) = true

/-! ### General helper lemmas -/

/-- Filtering by a condition that already entails "not deleted" is
insensitive to first erasing the soft-deleted rows. -/
theorem filter_purge (p : Row → Bool) (hp : ∀ r, p r = true → r.is_deleted = false) :
    ∀ l : List Row, (l.filter fun r => !r.is_deleted).filter p = l.filter p := by
  intro l
  induction l with
  | nil => rfl
  | cons r l ih =>
    cases hd : r.is_deleted with
    | true =>
      have hp' : p r = false := by
        cases hq : p r
        · rfl
        · exact absurd (hp r hq) (by simp [hd])
      simp [List.filter_cons, hd, hp', ih]
    | false =>
      simp [List.filter_cons, hd, ih]

theorem visCond_deleted_false {u : Int} {r : Row}
    (h : DatabaseService.visCond u r = true) : r.is_deleted = false := by
  simp [DatabaseService.visCond] at h
  exact h.2

theorem findCond_deleted_false {u : Int} {kw cat : Option String} {d : Option Int} {r : Row}
    (h : DatabaseService.findCond u kw cat d r = true) : r.is_deleted = false := by
  simp [DatabaseService.findCond] at h
  tauto

theorem rangeCond_deleted_false {u a b : Int} {r : Row}
    (h : DatabaseService.rangeCond u a b r = true) : r.is_deleted = false := by
  simp [DatabaseService.rangeCond] at h
  tauto

theorem typedCond_deleted_false {u : Int} {t : TransactionType} {a b : Int} {r : Row}
    (h : DatabaseService.typedCond u t a b r = true) : r.is_deleted = false := by
  simp [DatabaseService.typedCond] at h
  tauto

theorem visibleFor_purge (s : DBState) (u : Int) :
    DatabaseService.visibleFor (purge s) u = DatabaseService.visibleFor s u :=
  filter_purge _ (fun _ h => visCond_deleted_false h) s.rows

theorem findFilter_purge (s : DBState) (u : Int) (kw cat : Option String) (d : Option Int) :
    (purge s).rows.filter (DatabaseService.findCond u kw cat d)
      = s.rows.filter (DatabaseService.findCond u kw cat d) :=
  filter_purge _ (fun _ h => findCond_deleted_false h) s.rows

theorem inRangeRows_purge (s : DBState) (u a b : Int) :
    DatabaseService.inRangeRows (purge s) u a b = DatabaseService.inRangeRows s u a b :=
  filter_purge _ (fun _ h => rangeCond_deleted_false h) s.rows

theorem typedTotal_purge (s : DBState) (u : Int) (t : TransactionType) (a b : Int) :
    DatabaseService.typedTotal (purge s) u t a b = DatabaseService.typedTotal s u t a b := by
  unfold DatabaseService.typedTotal
  rw [show (purge s).rows.filter (DatabaseService.typedCond u t a b)
        = s.rows.filter (DatabaseService.typedCond u t a b) from
      filter_purge _ (fun _ h => typedCond_deleted_false h) s.rows]

/-- `insertSorted` permutes the element onto the list. -/
theorem insertSorted_perm {α : Type} (le : α → α → Bool) (a : α) (l : List α) :
    List.Perm (insertSorted le a l) (a :: l) := by
  induction l with
  | nil => simp [insertSorted]
  | cons b bs ih =>
    simp only [insertSorted]
    by_cases h : le a b
    · simp [h]
    · simp only [h, if_neg, Bool.false_eq_true, not_false_eq_true, ite_false]
      exact (ih.cons b).trans (List.Perm.swap a b bs)

/-- `sortByB` is a permutation. -/
theorem sortByB_perm {α : Type} (le : α → α → Bool) (l : List α) :
    List.Perm (sortByB le l) l := by
  induction l with
  | nil => simp [sortByB]
  | cons a l ih =>
    exact (insertSorted_perm le a (sortByB le l)).trans (ih.cons a)

/-! ### C1 -/

/-- C1: every read operation of the ledger store (get_last, find, get_report,
export_csv, get_stats) excludes soft-deleted rows — each read is invariant
under physically erasing the soft-deleted rows, and no row it returns is
soft-deleted — and no mutating operation physically removes a row (insert
grows the table by one row, update/delete/clear_all keep its length). -/
theorem reads_exclude_soft_deleted :
    (∀ s u, DatabaseService.get_last (purge s) u = DatabaseService.get_last s u) ∧
    (∀ s u kw cat d lim,
      DatabaseService.find (purge s) u kw cat d lim = DatabaseService.find s u kw cat d lim) ∧
    (∀ s u a b, DatabaseService.get_report (purge s) u a b = DatabaseService.get_report s u a b) ∧
    (∀ s u, DatabaseService.export_csv (purge s) u = DatabaseService.export_csv s u) ∧
    (∀ s u, DatabaseService.get_stats (purge s) u = DatabaseService.get_stats s u) ∧
    (∀ s u r, DatabaseService.get_last s u = some r → r.is_deleted = false) ∧
    (∀ s u kw cat d lim r, r ∈ DatabaseService.find s u kw cat d lim → r.is_deleted = false) ∧
    (∀ s u a b r, r ∈ (DatabaseService.get_report s u a b).transactions → r.is_deleted = false) ∧
    (∀ s u a c n t d td,
      ((DatabaseService.insert s u a c n t d td).1.rows).length = s.rows.length + 1) ∧
    (∀ s i u a c n, ((DatabaseService.update s i u a c n).1.rows).length = s.rows.length) ∧
    (∀ s i u, ((DatabaseService.delete s i u).1.rows).length = s.rows.length) ∧
    (∀ s u, ((DatabaseService.clear_all s u).1.rows).length = s.rows.length) := by
  refine ⟨?_, ?_, ?_, ?_, ?_, ?_, ?_, ?_, ?_, ?_, ?_, ?_⟩
  · intro s u
    unfold DatabaseService.get_last
    rw [visibleFor_purge]
  · intro s u kw cat d lim
    unfold DatabaseService.find
    rw [findFilter_purge]
  · intro s u a b
    unfold DatabaseService.get_report
    rw [typedTotal_purge, typedTotal_purge, inRangeRows_purge]
  · intro s u
    unfold DatabaseService.export_csv
    rw [visibleFor_purge]
  · intro s u
    unfold DatabaseService.get_stats
    rw [visibleFor_purge]
  · intro s u r h
    unfold DatabaseService.get_last at h
    have hr : r ∈ (DatabaseService.visibleFor s u).reverse := by
      cases hh : (DatabaseService.visibleFor s u).reverse with
      | nil => rw [hh] at h; cases h
      | cons x xs =>
        rw [hh] at h
        have h' : x = r := by simpa using h
        rw [← h']
        exact List.mem_cons_self x xs
    exact visCond_deleted_false (List.mem_filter.mp (List.mem_reverse.mp hr)).2
  · intro s u kw cat d lim r h
    unfold DatabaseService.find at h
    have hr := (List.take_sublist lim _).subset h
    exact findCond_deleted_false (List.mem_filter.mp (List.mem_reverse.mp hr)).2
  · intro s u a b r h
    unfold DatabaseService.get_report at h
    simp only at h
    have hr := (sortByB_perm DatabaseService.dateLe _).mem_iff.mp h
    have hr' := List.mem_reverse.mp hr
    exact rangeCond_deleted_false
      (List.mem_filter.mp (by simpa [DatabaseService.inRangeRows] using hr')).2
  · intro s u a c n t d td
    simp [DatabaseService.insert]
  · intro s i u a c n
    simp only [DatabaseService.update]
    split
    · rfl
    · simp
  · intro s i u
    simp [DatabaseService.delete]
  · intro s u
    simp [DatabaseService.clear_all]

/-- Demonstration state for witnesses: user 1 inserts an expense of 50 with
note "an pho" on day 100, then an income recorded as -200 (stored as 200). -/
def demoDB : DBState :=
  (DatabaseService.insert
    ((DatabaseService.insert initDB 1 50 "An uong" (some "an pho") .chi (some 100) 100).1)
    1 (-200) "Luong" (some "AN PHO") .thu none 101).1

/-- The second row of `demoDB`, as stored. -/
def demoRow2 : Row :=
  { id := 2, user_id := 1, amount := 200, category := "Luong", note := some "AN PHO",
    type := .thu, transaction_date := 101, created_at := 1, updated_at := 1,
    is_deleted := false }

theorem reads_exclude_soft_deleted_witness :
    demoRow2.is_deleted = false :=
  reads_exclude_soft_deleted.2.2.2.2.2.1 demoDB 1 demoRow2 (by decide)

/-! ### C2 -/

/-- A map that acts pointwise satisfies any pointwise relation. -/
theorem forall2_map_self {α : Type} (f : α → α) (P : α → α → Prop) (l : List α)
    (h : ∀ x ∈ l, P x (f x)) : List.Forall₂ P l (l.map f) := by
  induction l with
  | nil => exact List.Forall₂.nil
  | cons a l ih =>
    exact List.Forall₂.cons (h a (List.mem_cons_self a l))
      (ih fun x hx => h x (List.mem_cons_of_mem a hx))

/-- One ledger mutation preserves "all stored amounts are non-negative". -/
theorem applyOp_amount_nonneg (s : DBState) (o : Op)
    (h : ∀ r ∈ s.rows, 0 ≤ r.amount) : ∀ r ∈ (applyOp s o).rows, 0 ≤ r.amount := by
  cases o with
  | ins u a c n t d td =>
    intro r hr
    simp only [applyOp, DatabaseService.insert, List.mem_append, List.mem_singleton] at hr
    rcases hr with hr | hr
    · exact h r hr
    · rw [hr]
      exact abs_nonneg a
  | upd i u a c n =>
    intro r hr
    simp only [applyOp, DatabaseService.update] at hr
    split at hr
    · exact h r hr
    · simp only [List.mem_map] at hr
      obtain ⟨r₀, hr₀, rfl⟩ := hr
      by_cases hh : DatabaseService.rowHit i u r₀ = true
      · cases a with
        | some a₀ => simp only [hh, if_true]; exact abs_nonneg a₀
        | none => simp only [hh, if_true]; exact h r₀ hr₀
      · simp only [hh, if_false, Bool.false_eq_true]
        exact h r₀ hr₀
  | del i u =>
    intro r hr
    simp only [applyOp, DatabaseService.delete, List.mem_map] at hr
    obtain ⟨r₀, hr₀, rfl⟩ := hr
    by_cases hh : DatabaseService.rowHit i u r₀ = true
    · simp only [hh, if_true]; exact h r₀ hr₀
    · simp only [hh, if_false, Bool.false_eq_true]; exact h r₀ hr₀

/-- A whole sequence of mutations preserves it. -/
theorem applyOps_amount_nonneg (ops : List Op) :
    ∀ s, (∀ r ∈ s.rows, 0 ≤ r.amount) → ∀ r ∈ (applyOps s ops).rows, 0 ≤ r.amount := by
  induction ops with
  | nil => intro s h; exact h
  | cons o ops ih => intro s h; exact ih (applyOp s o) (applyOp_amount_nonneg s o h)

/-- C2: insert stores `abs(amount)` of the given amount of either sign
(appending exactly one row); update with a supplied amount stores its
absolute value on every hit row and leaves every other row's amount
unchanged; consequently, after any sequence of insert/update/delete
operations on a fresh database, every stored transaction amount is
non-negative. -/
theorem amounts_stored_nonnegative :
    (∀ s u a c n t d td, ∃ row : Row,
        (DatabaseService.insert s u a c n t d td).1.rows = s.rows ++ [row] ∧
        row.amount = |a|) ∧
    (∀ s i u (a : Int) c n,
      List.Forall₂ (fun r r' =>
          (DatabaseService.rowHit i u r = true → r'.amount = |a|) ∧
          (DatabaseService.rowHit i u r = false → r'.amount = r.amount))
        s.rows (DatabaseService.update s i u (some a) c n).1.rows) ∧
    (∀ ops r, r ∈ (applyOps initDB ops).rows → 0 ≤ r.amount) := by
  refine ⟨?_, ?_, ?_⟩
  · intro s u a c n t d td
    exact ⟨_, rfl, rfl⟩
  · intro s i u a c n
    simp only [DatabaseService.update]
    rw [if_neg (by simp)]
    apply forall2_map_self
    intro x hx
    constructor
    · intro hh
      simp only [hh, if_true]
    · intro hh
      simp only [hh, if_false, Bool.false_eq_true]
  · intro ops r hr
    exact applyOps_amount_nonneg ops initDB (by simp [initDB]) r hr

theorem amounts_stored_nonnegative_witness :
    0 ≤ (Row.mk 1 1 50 "An uong" (some "x") TransactionType.chi 100 0 0 false).amount :=
  amounts_stored_nonnegative.2.2 [Op.ins 1 (-50) "An uong" (some "x") .chi (some 100) 100]
    _ (by decide)

/-! ### C3 -/

/-- C3 counterexample: the object parsed from the response text
`{"action": "insert", "date_offset": "x"}` is a perfectly valid JSON object,
yet the Action construction of `_parse_action` raises — the unguarded
`date.today() - timedelta(days=date_offset)` computes `timedelta(days="x")`,
a TypeError.  (738886 is the Python date ordinal of 2024-06-15.) -/
theorem parse_action_throws_cex :
    AIService.parse_action 738886
      [("action", JVal.jstr "insert"), ("date_offset", JVal.jstr "x")]
    = Except.error "TypeError: unsupported type for timedelta days component" := rfl

/-- C3 amended: the JSON extraction itself never raises (every parse attempt
is wrapped in a bare except) and degrades, when all three strategies fail,
to the object `{"action": "unknown"}`, which the Action construction turns
into an UNKNOWN action whose other fields all carry their defaults (with
`target_date` resolved to today); and the Action construction never raises
PROVIDED the `date_offset` field resolves — i.e. it is absent, boolean or
numeric, and today minus the offset stays inside Python's representable date
range.  (Without that proviso it can raise, per the counterexample.) -/
theorem resolver_total_amended (today : Int) (data : JObj)
    (hoff : ∃ td, AIService.resolveTargetDate today
        (data.getD "date_offset" (JVal.jnum 0)) = Except.ok td)
    (htoday : 1 ≤ today ∧ today ≤ 3652059) :
    (∃ a, AIService.parse_action today data = Except.ok a) ∧
    AIService.extract_json none none none = [("action", JVal.jstr "unknown")] ∧
    AIService.parse_action today (AIService.extract_json none none none) =
      Except.ok { action := .unknown, amount := .jnull, category := .jnull,
                  tx_type := none, date_offset := .jnum 0, time_of_day := .jnull,
                  target_date := today, transaction_id := .jnull, keyword := .jnull,
                  report_type := none, limit := .jnum 10, message := .jnull } := by
  obtain ⟨td, htd⟩ := hoff
  refine ⟨?_, rfl, ?_⟩
  · unfold AIService.parse_action
    rw [htd]
    exact ⟨_, rfl⟩
  · have h0 : AIService.resolveTargetDate today (JObj.getD
        [("action", JVal.jstr "unknown")] "date_offset" (JVal.jnum 0)) = Except.ok today := by
      show (if 1 ≤ today - 0 ∧ today - 0 ≤ 3652059
            then Except.ok (today - 0)
            else Except.error "OverflowError: date value out of range") = Except.ok today
      rw [if_pos (by omega)]
      norm_num
    show AIService.parse_action today [("action", JVal.jstr "unknown")] = _
    unfold AIService.parse_action
    rw [h0]
    rfl

theorem resolver_total_amended_witness :
    ∃ a, AIService.parse_action 738886
      [("action", JVal.jstr "report"), ("date_offset", JVal.jnum 1)] = Except.ok a :=
  (resolver_total_amended 738886
    [("action", JVal.jstr "report"), ("date_offset", JVal.jnum 1)]
    ⟨738885, rfl⟩ (by decide)).1

/-! ### C4 -/

/-- An UPDATE action with an explicit transaction id and a new amount, as
`_parse_action` would build it from
`{"action": "update", "amount": 30000, "transaction_id": 1}`. -/
def updAction : AIAction :=
  { action := .update, amount := JVal.jnum 30000, category := JVal.jnull,
    tx_type := none, date_offset := JVal.jnum 0, time_of_day := JVal.jnull,
    target_date := 101, transaction_id := JVal.jnum 1, keyword := JVal.jnull,
    report_type := none, limit := JVal.jnum 10, message := JVal.jnull }

/-- C4 (code bug): the Dispatcher's UPDATE handler resolves the target id in
the claimed order — explicit id, else first keyword-search hit, else the
last transaction — and with no resolvable id it replies "transaction not
found" without mutating; but whenever an id IS resolved (by any of the three
routes) it crashes with AttributeError instead of updating, because it
evaluates `action.note` and the `AIAction` dataclass declares no `note`
field.  The four conjuncts exercise: explicit id → crash; keyword hit →
crash; last-transaction fallback → crash; nothing resolvable → "not found"
reply with the state untouched. -/
theorem handle_update_attribute_error :
    handle_update demoDB 1 updAction (DatabaseService.get_last demoDB 1)
      = Except.error "AttributeError: AIAction object has no attribute note" ∧
    handle_update demoDB 1
        { updAction with transaction_id := JVal.jnull, keyword := JVal.jstr "pho" } none
      = Except.error "AttributeError: AIAction object has no attribute note" ∧
    handle_update demoDB 1 { updAction with transaction_id := JVal.jnull }
        (DatabaseService.get_last demoDB 1)
      = Except.error "AttributeError: AIAction object has no attribute note" ∧
    handle_update initDB 5 { updAction with transaction_id := JVal.jnull } none
      = Except.ok (initDB, notFoundUpdateMsg) := by
  exact ⟨rfl, rfl, rfl, rfl⟩

/-! ### C5 -/

/-- Decomposition of the WHERE condition of `find`. -/
theorem findCond_spec {u : Int} {kw cat : Option String} {d : Option Int} {r : Row}
    (h : DatabaseService.findCond u kw cat d r = true) :
    r.user_id = u ∧ r.is_deleted = false ∧
    (∀ k, kw = some k → k ≠ "" → noteLike r.note k = true) ∧
    (∀ c, cat = some c → c ≠ "" → r.category = c) ∧
    (∀ dd, d = some dd → r.transaction_date = dd) := by
  simp only [DatabaseService.findCond, Bool.and_eq_true] at h
  obtain ⟨⟨⟨⟨h1, h2⟩, h3⟩, h4⟩, h5⟩ := h
  refine ⟨by simpa using h1, by simpa using h2, ?_, ?_, ?_⟩
  · intro k hk hk'
    subst hk
    simpa [hk'] using h3
  · intro c hc hc'
    subst hc
    simpa [hc'] using h4
  · intro dd hdd
    subst hdd
    simpa using h5

/-- An `ascendingB` list is pairwise increasing in `created_at`. -/
theorem pairwise_of_ascendingB :
    ∀ l : List Row, ascendingB l = true →
      List.Pairwise (fun a b => a.created_at < b.created_at) l := by
  intro l
  induction l with
  | nil => intro _; exact List.Pairwise.nil
  | cons r l ih =>
    intro h
    have hasc : ascendingB l = true := by
      cases l with
      | nil => rfl
      | cons r₂ rest =>
        simp only [ascendingB, Bool.and_eq_true] at h
        exact h.2
    have hp := ih hasc
    refine List.Pairwise.cons ?_ hp
    intro x hx
    cases l with
    | nil => cases hx
    | cons r₂ rest =>
      simp only [ascendingB, Bool.and_eq_true, decide_eq_true_eq] at h
      rcases List.mem_cons.mp hx with rfl | hx'
      · exact h.1
      · exact lt_trans h.1 (List.rel_of_pairwise_cons hp hx')

/-- C5 counterexample: in `demoDB` the user's two notes are "an pho" and
"AN PHO"; `find` with keyword "AN" returns both (SQLite `LIKE` is
ASCII-case-insensitive), so not every returned row contains "AN" as a
case-sensitive substring — the claim as stated is false. -/
theorem find_case_insensitive_cex :
    ¬ (∀ r ∈ DatabaseService.find demoDB 1 (some "AN") none none 10,
        specContainsSub ("AN".data) ((r.note.getD "").data) = true) := by
  decide

/-- C5 amended: on a well-formed state every row returned by `find` belongs
to the user, is not soft-deleted, has a note matching the SQL pattern
`%keyword%` (substring containment up to ASCII case folding, `%`/`_` in the
keyword acting as wildcards) whenever a non-empty keyword is given, matches
the category and date exactly when given (all conditions conjoined); the
result is ordered newest-created-first and never longer than the limit. -/
theorem find_filters_amended (s : DBState) (u : Int) (kw cat : Option String)
    (d : Option Int) (lim : Nat) (hwf : WF s) :
    (∀ r ∈ DatabaseService.find s u kw cat d lim,
      r.user_id = u ∧ r.is_deleted = false ∧
      (∀ k, kw = some k → k ≠ "" → noteLike r.note k = true) ∧
      (∀ c, cat = some c → c ≠ "" → r.category = c) ∧
      (∀ dd, d = some dd → r.transaction_date = dd)) ∧
    (DatabaseService.find s u kw cat d lim).length ≤ lim ∧
    List.Pairwise (fun a b => b.created_at < a.created_at)
      (DatabaseService.find s u kw cat d lim) := by
  refine ⟨?_, ?_, ?_⟩
  · intro r hr
    unfold DatabaseService.find at hr
    have hr' := (List.take_sublist lim _).subset hr
    exact findCond_spec (List.mem_filter.mp (List.mem_reverse.mp hr')).2
  · unfold DatabaseService.find
    exact List.length_take_le lim _
  · have hasc : ascendingB s.rows = true := by
      have := hwf
      unfold WF at this
      simp only [Bool.and_eq_true] at this
      exact this.1
    have hp := pairwise_of_ascendingB s.rows hasc
    have hpf : List.Pairwise (fun a b => a.created_at < b.created_at)
        (s.rows.filter (DatabaseService.findCond u kw cat d)) := hp.filter _
    have hrev : List.Pairwise (fun a b => b.created_at < a.created_at)
        ((s.rows.filter (DatabaseService.findCond u kw cat d)).reverse) :=
      List.pairwise_reverse.mpr hpf
    exact hrev.take

theorem find_filters_amended_witness :
    (DatabaseService.find demoDB 1 (some "an") none none 10).length ≤ 10 ∧
    noteLike demoRow2.note "an" = true :=
  ⟨(find_filters_amended demoDB 1 (some "an") none none 10 rfl).2.1,
   ((find_filters_amended demoDB 1 (some "an") none none 10 rfl).1 demoRow2
      (by decide)).2.2.1 "an" rfl (by decide)⟩

/-! ### C6 -/

/-- A pointwise-identity map is the identity. -/
theorem map_id_of_mem {α : Type} (f : α → α) :
    ∀ l : List α, (∀ x ∈ l, f x = x) → l.map f = l := by
  intro l
  induction l with
  | nil => intro _; rfl
  | cons a l ih =>
    intro h
    simp only [List.map_cons]
    rw [h a (List.mem_cons_self a l), ih (fun x hx => h x (List.mem_cons_of_mem a hx))]

/-- C6: frame and effect of `update`.  With no supplied field the call is a
pure no-op returning false.  Otherwise the table keeps its length and next
id; row-by-row (`Forall₂` relates old and new tables positionally), a row
not matching `id = ? AND user_id = ? AND is_deleted = 0` is untouched, and a
matching row keeps its id, owner, type, date, creation time and deletion
flag, changes exactly the supplied fields (plus `updated_at`), and keeps
every unsupplied field.  If no row matches, the call returns false and the
table is unchanged. -/
theorem update_frame (s : DBState) (tx_id : Nat) (u : Int)
    (am : Option Int) (cat nt : Option String) :
    ((am = none ∧ cat = none ∧ nt = none) →
      DatabaseService.update s tx_id u am cat nt = (s, false)) ∧
    ((DatabaseService.update s tx_id u am cat nt).1.nextId = s.nextId ∧
     (DatabaseService.update s tx_id u am cat nt).1.rows.length = s.rows.length) ∧
    List.Forall₂ (fun r r' =>
        (DatabaseService.rowHit tx_id u r = false → r' = r) ∧
        (DatabaseService.rowHit tx_id u r = true →
          r'.id = r.id ∧ r'.user_id = r.user_id ∧ r'.type = r.type ∧
          r'.transaction_date = r.transaction_date ∧ r'.created_at = r.created_at ∧
          r'.is_deleted = r.is_deleted ∧
          (am = none → r'.amount = r.amount) ∧ (∀ a, am = some a → r'.amount = |a|) ∧
          (cat = none → r'.category = r.category) ∧ (∀ c, cat = some c → r'.category = c) ∧
          (nt = none → r'.note = r.note) ∧ (∀ n, nt = some n → r'.note = some n)))
      s.rows (DatabaseService.update s tx_id u am cat nt).1.rows ∧
    ((∀ r ∈ s.rows, DatabaseService.rowHit tx_id u r = false) →
      (DatabaseService.update s tx_id u am cat nt).2 = false ∧
      (DatabaseService.update s tx_id u am cat nt).1.rows = s.rows) := by
  refine ⟨?_, ?_, ?_, ?_⟩
  · rintro ⟨rfl, rfl, rfl⟩
    simp [DatabaseService.update]
  · unfold DatabaseService.update
    split
    · exact ⟨rfl, rfl⟩
    · exact ⟨rfl, by simp⟩
  · by_cases hn : am = none ∧ cat = none ∧ nt = none
    · obtain ⟨rfl, rfl, rfl⟩ := hn
      rw [show (DatabaseService.update s tx_id u none none none).1.rows = s.rows from by
        simp [DatabaseService.update]]
      refine List.forall₂_same.mpr ?_
      intro r _
      refine ⟨fun _ => rfl, fun _ => ?_⟩
      refine ⟨rfl, rfl, rfl, rfl, rfl, rfl, fun _ => rfl, ?_, fun _ => rfl, ?_,
        fun _ => rfl, ?_⟩
      · intro a ha
        cases ha
      · intro c hc
        cases hc
      · intro n hnn
        cases hnn
    · unfold DatabaseService.update
      rw [if_neg hn]
      apply forall2_map_self
      intro x _
      constructor
      · intro hh
        rw [if_neg (by simp [hh])]
      · intro hh
        rw [if_pos hh]
        refine ⟨rfl, rfl, rfl, rfl, rfl, rfl, ?_, ?_, ?_, ?_, ?_, ?_⟩
        · rintro rfl
          rfl
        · rintro a rfl
          rfl
        · rintro rfl
          rfl
        · rintro c rfl
          rfl
        · rintro rfl
          rfl
        · rintro n rfl
          rfl
  · intro hmiss
    unfold DatabaseService.update
    by_cases hn : am = none ∧ cat = none ∧ nt = none
    · rw [if_pos hn]
      exact ⟨rfl, rfl⟩
    · rw [if_neg hn]
      constructor
      · rw [List.any_eq_false]
        intro r hr
        simp [hmiss r hr]
      · exact map_id_of_mem _ s.rows fun r hr => by
          rw [if_neg (by simp [hmiss r hr])]

theorem update_frame_witness :
    DatabaseService.update demoDB 1 1 none none none = (demoDB, false) ∧
    (DatabaseService.update demoDB 99 1 (some 5) none none).2 = false :=
  ⟨(update_frame demoDB 1 1 none none none).1 ⟨rfl, rfl, rfl⟩,
   ((update_frame demoDB 99 1 (some 5) none none).2.2.2 (by decide)).1⟩

/-! ### C7 -/

/-- After a `delete(N, u)` call, every row carrying that id and owner is
marked deleted (it either was just marked, or was already deleted — which is
the only way it can fail the UPDATE's WHERE clause while id and owner
match). -/
theorem delete_marks_deleted (s : DBState) (N : Nat) (u : Int) :
    ∀ r' ∈ (DatabaseService.delete s N u).1.rows,
      r'.id = N → r'.user_id = u → r'.is_deleted = true := by
  intro r' hr'
  simp only [DatabaseService.delete, List.mem_map] at hr'
  obtain ⟨r₀, h₀, rfl⟩ := hr'
  by_cases hh : DatabaseService.rowHit N u r₀ = true
  · rw [if_pos hh]
    intro _ _
    rfl
  · rw [if_neg hh]
    intro hid huser
    rw [Bool.not_eq_true] at hh
    simp [DatabaseService.rowHit, hid, huser] at hh
    exact hh

/-- Per-list accounting for `clear_all` after a delete: rows hit by the
delete are no longer counted, all other rows count as before. -/
theorem clear_count_after_delete (N : Nat) (u : Int) (c : Nat) :
    ∀ l : List Row,
      ((l.map (fun r => if DatabaseService.rowHit N u r = true then
          { r with is_deleted := true, updated_at := c } else r)).filter
        (DatabaseService.visCond u)).length
      + (l.filter (DatabaseService.rowHit N u)).length
      = (l.filter (DatabaseService.visCond u)).length := by
  intro l
  induction l with
  | nil => rfl
  | cons r l ih =>
    by_cases hh : DatabaseService.rowHit N u r = true
    · have hv : DatabaseService.visCond u r = true := by
        simp only [DatabaseService.rowHit, Bool.and_eq_true] at hh
        simp [DatabaseService.visCond, hh.1.2, hh.2]
      have hv' : DatabaseService.visCond u
          { r with is_deleted := true, updated_at := c } = false := by
        simp [DatabaseService.visCond]
      simp only [List.map_cons, List.filter_cons, hh, if_pos, hv, hv']
      simp only [Bool.false_eq_true, if_false, if_true, List.length_cons]
      omega
    · simp only [List.map_cons, List.filter_cons, hh, Bool.false_eq_true, if_false]
      cases hv : DatabaseService.visCond u r
      · simp only [hv, Bool.false_eq_true, if_false]
        exact ih
      · simp only [hv, if_true, List.length_cons]
        omega

/-- C7: `delete(N, u)` succeeds (returns true) exactly when a live row with
that id and owner exists; afterwards every such row is marked deleted, so an
immediately repeated `delete(N, u)` returns false (the model is total, so no
call throws); and the rows hit by the delete are not counted again by a
subsequent `clear_all` for the same user (its count drops by exactly the
number of rows the delete hit). -/
theorem delete_behaviour (s : DBState) (N : Nat) (u : Int) :
    ((DatabaseService.delete s N u).2 = true ↔
      ∃ r ∈ s.rows, DatabaseService.rowHit N u r = true) ∧
    (∀ r' ∈ (DatabaseService.delete s N u).1.rows,
      r'.id = N → r'.user_id = u → r'.is_deleted = true) ∧
    (DatabaseService.delete (DatabaseService.delete s N u).1 N u).2 = false ∧
    ((DatabaseService.clear_all (DatabaseService.delete s N u).1 u).2
      + (s.rows.filter (DatabaseService.rowHit N u)).length
      = (DatabaseService.clear_all s u).2) := by
  refine ⟨?_, delete_marks_deleted s N u, ?_, ?_⟩
  · simp [DatabaseService.delete, List.any_eq_true]
  · show ((DatabaseService.delete s N u).1.rows.any (DatabaseService.rowHit N u)) = false
    rw [List.any_eq_false]
    intro r' hr' hcontra
    have hdel := delete_marks_deleted s N u r' hr'
    simp only [DatabaseService.rowHit, Bool.and_eq_true, beq_iff_eq] at hcontra
    have := hdel hcontra.1.1 hcontra.1.2
    rw [this] at hcontra
    simp at hcontra
  · exact clear_count_after_delete N u s.clock s.rows

theorem delete_behaviour_witness :
    (DatabaseService.delete demoDB 1 1).2 = true ∧
    (DatabaseService.delete (DatabaseService.delete demoDB 1 1).1 1 1).2 = false ∧
    (Row.mk 1 1 50 "An uong" (some "an pho") TransactionType.chi 100 0 2 true).is_deleted
      = true :=
  ⟨(delete_behaviour demoDB 1 1).1.mpr (by decide),
   (delete_behaviour demoDB 1 1).2.2.1,
   (delete_behaviour demoDB 1 1).2.1 _ (by decide) rfl rfl⟩

/-! ### C8 -/

/-- The income/expense condition entails the plain range condition. -/
theorem typedCond_implies_rangeCond {u : Int} {t : TransactionType} {a b : Int} {r : Row}
    (h : DatabaseService.typedCond u t a b r = true) :
    DatabaseService.rangeCond u a b r = true := by
  simp only [DatabaseService.typedCond, Bool.and_eq_true] at h
  simp only [DatabaseService.rangeCond, Bool.and_eq_true]
  tauto

/-- Inserting into a `total`-descending list keeps it `total`-descending. -/
theorem pairwise_insertSorted_cat (a : CatRow) (l : List CatRow)
    (h : List.Pairwise (fun e₁ e₂ => e₂.total ≤ e₁.total) l) :
    List.Pairwise (fun e₁ e₂ => e₂.total ≤ e₁.total)
      (insertSorted DatabaseService.catLe a l) := by
  induction l with
  | nil => exact List.pairwise_singleton ..
  | cons b bs ih =>
    simp only [insertSorted]
    by_cases hle : DatabaseService.catLe a b = true
    · rw [if_pos hle]
      refine List.Pairwise.cons ?_ h
      intro x hx
      have hab : b.total ≤ a.total := by
        simpa [DatabaseService.catLe] using hle
      rcases List.mem_cons.mp hx with rfl | hx'
      · exact hab
      · exact le_trans (List.rel_of_pairwise_cons h hx') hab
    · rw [if_neg hle]
      have hba : a.total ≤ b.total := by
        simp only [DatabaseService.catLe, decide_eq_true_eq] at hle
        omega
      have hbs := (List.pairwise_cons.mp h).2
      have hbmem := (List.pairwise_cons.mp h).1
      refine List.Pairwise.cons ?_ (ih hbs)
      intro x hx
      have hx' := (insertSorted_perm DatabaseService.catLe a bs).mem_iff.mp hx
      rcases List.mem_cons.mp hx' with rfl | hx''
      · exact hba
      · exact hbmem x hx''

/-- The category sort is `total`-descending. -/
theorem sorted_sortCat (l : List CatRow) :
    List.Pairwise (fun e₁ e₂ => e₂.total ≤ e₁.total)
      (sortByB DatabaseService.catLe l) := by
  induction l with
  | nil => exact List.Pairwise.nil
  | cons a l ih => exact pairwise_insertSorted_cat a _ ih

/-- C8: in every report, balance = income − expense; the category breakdown
is sorted descending by summed amount, holds exactly one entry per
(category, type) pair present among the user's in-range non-deleted rows,
and each entry's total and count are the sum of amounts and the number of
rows of its pair; an empty range yields zero totals, zero balance and empty
category/transaction lists. -/
theorem report_aggregation (s : DBState) (u : Int) (a b : Int) :
    ((DatabaseService.get_report s u a b).balance
      = (DatabaseService.get_report s u a b).total_income
        - (DatabaseService.get_report s u a b).total_expense) ∧
    List.Pairwise (fun e₁ e₂ => e₂.total ≤ e₁.total)
      (DatabaseService.get_report s u a b).by_category ∧
    ((DatabaseService.get_report s u a b).by_category.map
      fun e => (e.category, e.type)).Nodup ∧
    (∀ c t, ((c, t) ∈ (DatabaseService.get_report s u a b).by_category.map
        fun e => (e.category, e.type)) ↔
      ∃ r ∈ DatabaseService.inRangeRows s u a b, r.category = c ∧ r.type = t) ∧
    (∀ e ∈ (DatabaseService.get_report s u a b).by_category,
      e.total = (((DatabaseService.inRangeRows s u a b).filter fun r =>
          r.category == e.category && r.type == e.type).map fun r => r.amount).sum ∧
      e.count = ((DatabaseService.inRangeRows s u a b).filter fun r =>
          r.category == e.category && r.type == e.type).length) ∧
    (DatabaseService.inRangeRows s u a b = [] →
      (DatabaseService.get_report s u a b).total_income = 0 ∧
      (DatabaseService.get_report s u a b).total_expense = 0 ∧
      (DatabaseService.get_report s u a b).balance = 0 ∧
      (DatabaseService.get_report s u a b).by_category = [] ∧
      (DatabaseService.get_report s u a b).transactions = []) := by
  have hperm : List.Perm (DatabaseService.get_report s u a b).by_category
      ((((DatabaseService.inRangeRows s u a b).map fun r => (r.category, r.type)).dedup).map
        (DatabaseService.catRowFor (DatabaseService.inRangeRows s u a b))) :=
    sortByB_perm _ _
  have hkeys : ((((DatabaseService.inRangeRows s u a b).map
          fun r => (r.category, r.type)).dedup).map
        (DatabaseService.catRowFor (DatabaseService.inRangeRows s u a b))).map
      (fun e => (e.category, e.type))
      = (((DatabaseService.inRangeRows s u a b).map fun r => (r.category, r.type)).dedup) := by
    rw [List.map_map]
    exact map_id_of_mem _ _ fun k _ => rfl
  refine ⟨rfl, sorted_sortCat _, ?_, ?_, ?_, ?_⟩
  · refine ((hperm.map _).nodup_iff).mpr ?_
    rw [hkeys]
    exact List.nodup_dedup _
  · intro c t
    rw [List.Perm.mem_iff (hperm.map _), hkeys, List.mem_dedup, List.mem_map]
    constructor
    · rintro ⟨r, hr, hk⟩
      rw [Prod.mk.injEq] at hk
      exact ⟨r, hr, hk.1, hk.2⟩
    · rintro ⟨r, hr, h1, h2⟩
      exact ⟨r, hr, by rw [h1, h2]⟩
  · intro e he
    have he' := (List.Perm.mem_iff hperm).mp he
    rw [List.mem_map] at he'
    obtain ⟨k, _, rfl⟩ := he'
    exact ⟨rfl, rfl⟩
  · intro h
    have hnil : ∀ t, s.rows.filter (DatabaseService.typedCond u t a b) = [] := by
      intro t
      have hr := List.filter_eq_nil_iff.mp h
      exact List.filter_eq_nil_iff.mpr
        fun r hrm hc => hr r hrm (typedCond_implies_rangeCond hc)
    have hthu : DatabaseService.typedTotal s u .thu a b = 0 := by
      unfold DatabaseService.typedTotal
      rw [hnil .thu]
      rfl
    have hchi : DatabaseService.typedTotal s u .chi a b = 0 := by
      unfold DatabaseService.typedTotal
      rw [hnil .chi]
      rfl
    refine ⟨hthu, hchi, ?_, ?_, ?_⟩
    · show DatabaseService.typedTotal s u .thu a b
        - DatabaseService.typedTotal s u .chi a b = 0
      rw [hthu, hchi]
      rfl
    · show sortByB DatabaseService.catLe
        ((((DatabaseService.inRangeRows s u a b).map fun r => (r.category, r.type)).dedup).map
          (DatabaseService.catRowFor (DatabaseService.inRangeRows s u a b))) = []
      rw [h]
      rfl
    · show sortByB DatabaseService.dateLe (DatabaseService.inRangeRows s u a b).reverse = []
      rw [h]
      rfl

theorem report_aggregation_witness :
    (DatabaseService.get_report demoDB 1 5 6).total_income = 0 ∧
    (DatabaseService.get_report demoDB 1 5 6).transactions = [] ∧
    ((DatabaseService.get_report demoDB 1 100 101).by_category.map
      fun e => (e.category, e.type)).Nodup :=
  ⟨((report_aggregation demoDB 1 5 6).2.2.2.2.2 (by decide)).1,
   ((report_aggregation demoDB 1 5 6).2.2.2.2.2 (by decide)).2.2.2.2,
   (report_aggregation demoDB 1 100 101).2.2.1⟩

/-! ### C9 -/

/-- Appending a strictly newer row keeps the list ascending. -/
theorem ascendingB_append_one (x : Row) :
    ∀ l : List Row, ascendingB l = true → (∀ r ∈ l, r.created_at < x.created_at) →
      ascendingB (l ++ [x]) = true := by
  intro l
  induction l with
  | nil => intro _ _; rfl
  | cons r l ih =>
    intro h hlt
    cases l with
    | nil =>
      show (decide (r.created_at < x.created_at) && ascendingB [x]) = true
      rw [Bool.and_eq_true]
      exact ⟨decide_eq_true (hlt r (List.mem_cons_self r [])), rfl⟩
    | cons r₂ rest =>
      simp only [ascendingB, Bool.and_eq_true] at h
      have htail := ih h.2 (fun rr hrr => hlt rr (List.mem_cons_of_mem r hrr))
      show (decide (r.created_at < r₂.created_at) && ascendingB ((r₂ :: rest) ++ [x])) = true
      rw [Bool.and_eq_true]
      exact ⟨h.1, htail⟩

/-- `insert` preserves well-formedness: the fresh row is stamped with the
current clock, above every existing timestamp, and the clock advances. -/
theorem WF_insert (s : DBState) (u : Int) (a : Int) (c : String) (n : Option String)
    (t : TransactionType) (d : Option Int) (td : Int) (hwf : WF s) :
    WF (DatabaseService.insert s u a c n t d td).1 := by
  simp only [DatabaseService.insert]
  unfold WF at hwf ⊢
  simp only [Bool.and_eq_true, List.all_eq_true, decide_eq_true_eq] at hwf ⊢
  obtain ⟨h1, h2⟩ := hwf
  constructor
  · exact ascendingB_append_one _ s.rows h1 (fun r hr => h2 r hr)
  · intro r hr
    rcases List.mem_append.mp hr with hr | hr
    · have := h2 r hr
      omega
    · rw [List.mem_singleton] at hr
      rw [hr]
      exact Nat.lt_succ_self s.clock

/-- `get_last` immediately after `insert` returns exactly the inserted row. -/
theorem get_last_insert (s : DBState) (u : Int) (a : Int) (c : String)
    (n : Option String) (t : TransactionType) (d : Option Int) (td : Int) :
    DatabaseService.get_last (DatabaseService.insert s u a c n t d td).1 u
      = some { id := s.nextId, user_id := u, amount := |a|, category := c, note := n,
               type := t, transaction_date := d.getD td, created_at := s.clock,
               updated_at := s.clock, is_deleted := false } := by
  have hv : DatabaseService.visCond u
      { id := s.nextId, user_id := u, amount := |a|, category := c, note := n,
        type := t, transaction_date := d.getD td, created_at := s.clock,
        updated_at := s.clock, is_deleted := false } = true := by
    simp [DatabaseService.visCond]
  simp [DatabaseService.get_last, DatabaseService.visibleFor, DatabaseService.insert,
        List.filter_append, hv]

/-- C9: on a well-formed state, inserting a transaction (any sign of amount,
any category, any type, any date) and immediately calling `get_last` for the
same user returns a transaction whose id, amount, category and date are the
inserted ones (the amount being the stored magnitude `abs(amount)`); the
state stays well-formed, so `created_at DESC` keeps selecting as modelled. -/
theorem insert_get_last_roundtrip (s : DBState) (u : Int) (a : Int) (c : String)
    (n : Option String) (t : TransactionType) (d : Option Int) (td : Int)
    (hwf : WF s) :
    (∃ r : Row,
      DatabaseService.get_last (DatabaseService.insert s u a c n t d td).1 u = some r ∧
      r.id = (DatabaseService.insert s u a c n t d td).2 ∧
      r.amount = |a| ∧ r.category = c ∧ r.transaction_date = d.getD td) ∧
    WF (DatabaseService.insert s u a c n t d td).1 :=
  ⟨⟨_, get_last_insert s u a c n t d td, rfl, rfl, rfl, rfl⟩,
   WF_insert s u a c n t d td hwf⟩

theorem insert_get_last_roundtrip_witness :
    ∃ r : Row,
      DatabaseService.get_last
        (DatabaseService.insert demoDB 2 (-7) "Khac" none TransactionType.chi none 100).1 2
        = some r ∧
      r.id = (DatabaseService.insert demoDB 2 (-7) "Khac" none TransactionType.chi none 100).2 ∧
      r.amount = |(-7 : Int)| ∧ r.category = "Khac" ∧
      r.transaction_date = (none : Option Int).getD 100 :=
  (insert_get_last_roundtrip demoDB 2 (-7) "Khac" none .chi none 100 rfl).1

/-! ### C10 -/

/-- C10: `update` with note = "" (the empty string) is a supplied field —
`if note is not None` — so with a live matching row the call returns true
and every hit row's stored note becomes the empty string (other rows keep
their note); whereas note = None, whatever the other arguments, never
changes any stored note. -/
theorem update_empty_note (s : DBState) (tx_id : Nat) (u : Int)
    (hex : ∃ r ∈ s.rows, DatabaseService.rowHit tx_id u r = true) :
    (DatabaseService.update s tx_id u none none (some "")).2 = true ∧
    List.Forall₂ (fun r r' =>
        (DatabaseService.rowHit tx_id u r = true → r'.note = some "") ∧
        (DatabaseService.rowHit tx_id u r = false → r'.note = r.note))
      s.rows (DatabaseService.update s tx_id u none none (some "")).1.rows ∧
    (∀ am cat, List.Forall₂ (fun r r' => r'.note = r.note)
      s.rows (DatabaseService.update s tx_id u am cat none).1.rows) := by
  have hne : ¬((none : Option Int) = none ∧ (none : Option String) = none ∧
      (some "" : Option String) = none) := by simp
  refine ⟨?_, ?_, ?_⟩
  · unfold DatabaseService.update
    rw [if_neg hne]
    exact List.any_eq_true.mpr hex
  · unfold DatabaseService.update
    rw [if_neg hne]
    apply forall2_map_self
    intro x _
    constructor
    · intro hh
      rw [if_pos hh]
    · intro hh
      rw [if_neg (by simp [hh])]
  · intro am cat
    unfold DatabaseService.update
    by_cases hn : am = none ∧ cat = none ∧ (none : Option String) = none
    · rw [if_pos hn]
      exact List.forall₂_same.mpr fun r _ => rfl
    · rw [if_neg hn]
      apply forall2_map_self
      intro x _
      by_cases hh : DatabaseService.rowHit tx_id u x = true
      · rw [if_pos hh]
      · rw [if_neg hh]

theorem update_empty_note_witness :
    (DatabaseService.update demoDB 1 1 none none (some "")).2 = true :=
  (update_empty_note demoDB 1 1 (by decide)).1
